import Mathlib

/-!
Shallow embedding of the dnscache repository (github.com/ochinchina/dnscache).

The embedding follows the Go source in `src/unnamed/part_001` (the variant of
`cache_server.go` with a list of listen addresses and prebuilt `DNSServer`
clients); `src/cache_server.go` agrees on every function modelled here
(`getKey`, `findResponse`, `cacheResponse`, `parseListenAddr`,
`processDNSMsg` dispatch structure).

Modelling conventions:
- A DNS message keeps only the fields the program reads: `Id`, `Question`
  (name, qtype, qclass) and `Answer` (only the TTL of a record is read).
- Instants are `Nat` ticks on one absolute clock; `time.Now()` becomes an
  explicit `now` argument.  `NewDNSCacheItem` adds the first answer's TTL
  (seconds) to `now`, so a tick is one second; `t1.After t2` is `t2 < t1`
  (strict order, exactly as in Go's `time.Time.After`).
- The Go map `map[string]*DNSCacheItem` becomes an association list with
  insert-or-replace and delete; lookups are stated extensionally.
- Network calls (`dns.Client.Exchange`, `ListenAndServe`) are oracles passed
  as function arguments; a `none` result is a non-nil Go error.
- Pointer sharing of cached `*dns.Msg` values (needed for the aliasing
  claim) is modelled separately in namespace `Aliased` with an explicit
  heap of messages addressed by index; the plain model treats messages as
  values.
-/

/-- One entry of `req.Question`: `dns.Question{Name, Qtype, Qclass}`. -/
structure DNSQuestion where
  name : String
  qtype : Nat
  qclass : Nat
  deriving Repr, DecidableEq

/-- An answer record; the program only ever reads `Header().Ttl` (a uint32). -/
structure DNSRR where
  ttl : Nat
  deriving Repr, DecidableEq

/-- Go `dns.Msg` restricted to the fields the program reads or writes:
`Id`, `Question`, `Answer`. -/
structure DNSMsg where
  id : Nat
  question : List DNSQuestion
  answer : List DNSRR
  deriving Repr, DecidableEq

/-- Constant `dns.TypeA`. -/
def TypeA : Nat := 1

/-- Constant `dns.TypeAAAA`. -/
def TypeAAAA : Nat := 28

/-- Go `DNSCacheItem{timeOut, resp}`: the absolute expiry instant and the cached
reply (a value here; the aliased variant is in namespace `Aliased`). -/
structure DNSCacheItem where
  timeOut : Nat
  resp : DNSMsg
  deriving Repr, DecidableEq

/-- The backing map of `DNSCache` (`map[string]*DNSCacheItem`) as an
association list; the mutex only serialises access and has no effect on the
sequential semantics. -/
abbrev DNSCache := List (String × DNSCacheItem)

/-- Go `delete(dc.cache, key)`. -/
def eraseKey (key : String) (dc : DNSCache) : DNSCache :=
  dc.filter (fun p => p.1 != key)

/-- Go `dc.cache[key] = item` (insert or replace). -/
def putKey (key : String) (item : DNSCacheItem) (dc : DNSCache) : DNSCache :=
  (key, item) :: eraseKey key dc

/-- Go `NewDNSCache()`: empty map. -/
def NewDNSCache : DNSCache := []

/-- Go `NewDNSCacheItem(resp)`: expiry is `time.Now().Add(Ttl * time.Second)`
for the TTL of `resp.Answer[0]`; Go would panic on an empty answer section
(the only caller guards `len(resp.Answer) > 0`), modelled as `none`. -/
def NewDNSCacheItem (now : Nat) (resp : DNSMsg) : Option DNSCacheItem :=
  match resp.answer with
  | [] => none
  | a :: _ => some { timeOut := now + a.ttl, resp := resp }

/-- Go `(dci *DNSCacheItem) isTimeout()`: `time.Now().After(dci.timeOut)`,
i.e. the current instant is strictly after the expiry instant. -/
def DNSCacheItem.isTimeout (now : Nat) (dci : DNSCacheItem) : Bool :=
  decide (dci.timeOut < now)

/-- Go `(dc *DNSCache) getKey(req)`: defined only for exactly one question of
type A or AAAA; the key is `fmt.Sprintf("%s-%d", Name, Qtype)`. -/
def getKey (req : DNSMsg) : Option String :=
  match req.question with
  | [question] =>
      if question.qtype == TypeAAAA || question.qtype == TypeA then
        some (question.name ++ "-" ++ toString question.qtype)
      else
        none
  | _ => none

/-- Go `(dc *DNSCache) findResponse(req)`: returns the cached reply when the key
exists, an entry is present and not timed out; deletes the entry (and misses)
when it is timed out; misses otherwise.  The pair is (returned reply,
resulting map). -/
def findResponse (now : Nat) (dc : DNSCache) (req : DNSMsg) :
    Option DNSMsg × DNSCache :=
  match getKey req with
  | none => (none, dc)
  | some key =>
      match dc.lookup key with
      | none => (none, dc)
      | some item =>
          if item.isTimeout now then (none, eraseKey key dc)
          else (some item.resp, dc)

/-- Go `(dc *DNSCache) cacheResponse(req, resp)`: no-op unless the reply has at
least one answer record and the query has a key; otherwise insert-or-replace
the new item under the key. -/
def cacheResponse (now : Nat) (dc : DNSCache) (req resp : DNSMsg) : DNSCache :=
  if resp.answer.length > 0 then
    match getKey req with
    | none => dc
    | some key =>
        match NewDNSCacheItem now resp with
        | none => dc
        | some item => putKey key item dc
  else dc

/-- Go `strings.HasPrefix s p`, at character level.  Go compares the first
`len(p)` bytes; for the ASCII patterns `"udp:"` and `"tcp:"` used by this
program, byte-level and character-level comparison agree. -/
def hasPrefixChars (s p : String) : Bool :=
  p.data.isPrefixOf s.data

/-- Go `parseListenAddr(listenAddr) (proto, addr, err)`: a leading `udp:` or
`tcp:` picks the transport and is stripped (`listenAddr[4:]`, four ASCII
bytes, hence `drop 4` characters); otherwise the transport is `udp` and the
address is used verbatim.  The error result is the third component (always
`none` in the source). -/
def parseListenAddr (listenAddr : String) : String × String × Option String :=
  if hasPrefixChars listenAddr "udp:" then ("udp", listenAddr.drop 4, none)
  else if hasPrefixChars listenAddr "tcp:" then ("tcp", listenAddr.drop 4, none)
  else ("udp", listenAddr, none)

/-- Go `parseDNSServerAddr` simply delegates to `parseListenAddr`. -/
def parseDNSServerAddr (dnsServerAddr : String) : String × String × Option String :=
  parseListenAddr dnsServerAddr

/-- Go `DNSServer{client, addr}`: one upstream resolver client; `clientNet` is
the `Net` field of the embedded `dns.Client` (its transport). -/
structure DNSServer where
  clientNet : String
  addr : String
  deriving Repr, DecidableEq

/-- Go `NewDNSServer(server)`: parse the address and build the client; the error
branch triggers only when parsing fails. -/
def NewDNSServer (server : String) : Option DNSServer :=
  match parseDNSServerAddr server with
  | (_, _, some _) => none
  | (proto, addr, none) => some { clientNet := proto, addr := addr }

/-- Go `CacheServer{listenAddrs, servers, cache}`. -/
structure CacheServer where
  listenAddrs : List String
  servers : List DNSServer
  cache : DNSCache
  deriving Repr, DecidableEq

/-- Go `NewCacheServer(listenAddrs, servers)`: build a `DNSServer` per upstream
string, skipping (with `continue`) any whose construction errors, and start
with an empty cache. -/
def NewCacheServer (listenAddrs : List String) (servers : List String) : CacheServer :=
  { listenAddrs := listenAddrs,
    servers := servers.filterMap NewDNSServer,
    cache := NewDNSCache }

/-!
The dispatch handler `processDNSMsg`.  `w.WriteMsg` and `Exchange` are
externally visible effects: the result records the message written to the
requester (if any), the resulting cache, and the upstream servers whose
`Exchange` was invoked, in invocation order.
-/

/-- Observable outcome of one `processDNSMsg` call. -/
structure HandlerResult where
  written : Option DNSMsg
  cache : DNSCache
  contacted : List DNSServer
  deriving Repr, DecidableEq

/-- The upstream loop of `processDNSMsg`: try each server's `Exchange` in
list order; on the first `nil`-error reply, cache it and write it, invoking
no further server; when all fail, write nothing. -/
def forwardLoop (now : Nat) (exchange : DNSServer → Option DNSMsg)
    (cache : DNSCache) (req : DNSMsg) : List DNSServer → HandlerResult
  | [] => { written := none, cache := cache, contacted := [] }
  | server :: rest =>
      match exchange server with
      | some resp =>
          { written := some resp,
            cache := cacheResponse now cache req resp,
            contacted := [server] }
      | none =>
          let r := forwardLoop now exchange cache req rest
          { r with contacted := server :: r.contacted }

/-- Go `(cs *CacheServer) processDNSMsg(w, req)`: cache hit rewrites the reply's
`Id` to the query's and writes it; otherwise the upstream loop runs on the
cache state left by the lookup.  (In the value model the hit-path `Id`
assignment shows up only in the written message; the in-place mutation of
the stored reply is modelled in namespace `Aliased`.) -/
def processDNSMsg (now : Nat) (exchange : DNSServer → Option DNSMsg)
    (servers : List DNSServer) (cache : DNSCache) (req : DNSMsg) : HandlerResult :=
  match findResponse now cache req with
  | (some resp, cache1) =>
      { written := some { resp with id := req.id }, cache := cache1, contacted := [] }
  | (none, cache1) => forwardLoop now exchange cache1 req servers

/-!
The listener-binding path `CacheServer.start` and the DNS library's global
dispatch table.  The source calls `dns.HandleFunc(".", cs.processDNSMsg)`,
the package-level registration of github.com/miekg/dns: it stores the
handler in the package's shared `DefaultServeMux`.  The `dns.Server` values
built in `startUDPServer` / `startTCPServer` set no `Handler` field, so they
dispatch through that same `DefaultServeMux`.  The table is modelled as an
association list from pattern to an opaque handler identity (`Nat`), and
`bind` is the oracle for `ListenAndServe` (a `some` is a non-nil error).
-/

/-- The library's shared dispatch table (`dns.DefaultServeMux`): pattern to
handler identity. -/
abbrev ServeMux := List (String × Nat)

/-- Go `dns.HandleFunc(pattern, handler)`: insert-or-replace in the shared
table. -/
def HandleFunc (pattern : String) (handler : Nat) (mux : ServeMux) : ServeMux :=
  (pattern, handler) :: mux.filter (fun p => p.1 != pattern)

/-- Which handler a listener backed by a `dns.Server` with no `Handler`
field invokes: the `DefaultServeMux` registration whose zone pattern matches
the query.  This program only ever registers the root zone `"."`, which
matches every query name, so resolution is the `"."` entry. -/
def muxResolve (mux : ServeMux) : Option Nat :=
  mux.lookup "."

/-- Outcome of `CacheServer.start`, one constructor per `return` site. -/
inductive StartOutcome where
  | ok : StartOutcome
  | parseFailure (e : String) : StartOutcome
  | unsupported (proto : String) : StartOutcome
  | bindFailure (e : String) : StartOutcome
  deriving Repr, DecidableEq

/-- Go `(cs *CacheServer) start()`: per listen address, parse it (returning the
error on failure), register `cs.processDNSMsg` for `"."` in the shared
`DefaultServeMux`, then start a udp or tcp listener (returning its error on
failure); any other transport token is the unsupported-protocol error.
`handler` is this instance's handler identity; `bind proto addr` is the
`ListenAndServe` oracle.  Returns the outcome and the resulting shared
table. -/
def start (bind : String → String → Option String) (handler : Nat) :
    List String → ServeMux → StartOutcome × ServeMux
  | [], mux => (.ok, mux)
  | listenAddr :: rest, mux =>
      match parseListenAddr listenAddr with
      | (_, _, some e) => (.parseFailure e, mux)
      | (proto, addr, none) =>
          let mux1 := HandleFunc "." handler mux
          if proto == "udp" then
            match bind "udp" addr with
            | some e => (.bindFailure e, mux1)
            | none => start bind handler rest mux1
          else if proto == "tcp" then
            match bind "tcp" addr with
            | some e => (.bindFailure e, mux1)
            | none => start bind handler rest mux1
          else (.unsupported proto, mux1)

namespace Aliased

/-!
Pointer-faithful variant of the cache and the dispatch handler.  Go stores
`*dns.Msg` pointers: the cache item keeps the address of the reply, the
heap is a list of messages indexed by address, `findResponse` hands out the
stored address, and the handler's `resp.Id = req.Id` mutates the heap cell
in place.  All functions mirror the same Go code as the value model above.
-/

/-- Variant of `DNSCacheItem` with `resp` as a heap address instead of a value. -/
structure CacheItem where
  timeOut : Nat
  respAddr : Nat
  deriving Repr, DecidableEq

/-- Program state: the message heap (address = index) and the cache map. -/
structure St where
  heap : List DNSMsg
  cache : List (String × CacheItem)
  deriving Repr, DecidableEq

/-- Aliased `findResponse` returning the address of the cached reply on a hit;
deletes a timed-out entry exactly as the value model does. -/
def findResponse (now : Nat) (st : St) (req : DNSMsg) : Option Nat × St :=
  match getKey req with
  | none => (none, st)
  | some key =>
      match st.cache.lookup key with
      | none => (none, st)
      | some item =>
          if item.timeOut < now then
            (none, { st with cache := st.cache.filter (fun p => p.1 != key) })
          else (some item.respAddr, st)

/-- Aliased `cacheResponse` for a reply already living at heap address `respAddr`. -/
def cacheResponse (now : Nat) (st : St) (req : DNSMsg) (respAddr : Nat) : St :=
  match st.heap.get? respAddr with
  | none => st
  | some resp =>
      if resp.answer.length > 0 then
        match getKey req with
        | none => st
        | some key =>
            match resp.answer with
            | [] => st
            | a :: _ =>
                { st with cache :=
                    (key, { timeOut := now + a.ttl, respAddr := respAddr }) ::
                      st.cache.filter (fun p => p.1 != key) }
      else st

/-- The upstream loop: a successful `Exchange` allocates the fresh reply at
the end of the heap, caches its address, and writes it. -/
def forwardLoop (now : Nat) (exchange : DNSServer → Option DNSMsg)
    (st : St) (req : DNSMsg) : List DNSServer → St × Option Nat
  | [] => (st, none)
  | server :: rest =>
      match exchange server with
      | some resp =>
          let addr := st.heap.length
          let st1 : St := { st with heap := st.heap ++ [resp] }
          (cacheResponse now st1 req addr, some addr)
      | none => forwardLoop now exchange st req rest

/-- Aliased `processDNSMsg`: on a hit, `resp.Id = req.Id` updates the heap cell at
the returned address in place, then that same address is written.  The
second component is the address of the written message (`none`: nothing
written). -/
def processDNSMsg (now : Nat) (exchange : DNSServer → Option DNSMsg)
    (servers : List DNSServer) (st : St) (req : DNSMsg) : St × Option Nat :=
  match findResponse now st req with
  | (some addr, st1) =>
      match st1.heap.get? addr with
      | none => (st1, some addr)
      | some resp =>
          ({ st1 with heap := st1.heap.set addr { resp with id := req.id } }, some addr)
  | (none, st1) => forwardLoop now exchange st1 req servers

end Aliased

/-!
Concrete values used by counterexamples and witnesses.
-/

/-- Concrete question: an A query for `example.com.`. -/
def qA : DNSQuestion := { name := "example.com.", qtype := 1, qclass := 1 }

/-- A concrete A query (one question, type A). -/
def reqEx : DNSMsg := { id := 2, question := [qA], answer := [] }

/-- A concrete reply whose first (only) answer record has TTL 5. -/
def respEx : DNSMsg := { id := 7, question := [qA], answer := [{ ttl := 5 }] }

/-- Concrete upstreams for the three-server fallback scenario. -/
def U1 : DNSServer := { clientNet := "udp", addr := "1.1.1.1:53" }

/-- Second concrete upstream (also failing in the scenario). -/
def U2 : DNSServer := { clientNet := "udp", addr := "2.2.2.2:53" }

/-- Third concrete upstream, the one that succeeds in the scenario. -/
def U3 : DNSServer := { clientNet := "udp", addr := "8.8.8.8:53" }

/-- Exchange oracle for the scenario: only `U3` answers (with `respEx`). -/
def exchEx : DNSServer → Option DNSMsg :=
  fun u => if u.addr == "8.8.8.8:53" then some respEx else none

/-- Concrete aliased state for the witness: the reply `respEx` lives at heap
address 0 and is cached under the A-record key until instant 60. -/
def stEx : Aliased.St :=
  { heap := [respEx],
    cache := [("example.com.-1", { timeOut := 60, respAddr := 0 })] }

/-! Helper lemmas about the association-list map operations. -/

theorem lookup_eraseKey (key k : String) (dc : DNSCache) :
    (eraseKey key dc).lookup k = if k = key then none else dc.lookup k := by
  induction dc with
  | nil => simp [eraseKey]
  | cons p rest ih =>
      obtain ⟨pk, pv⟩ := p
      simp only [eraseKey, List.filter_cons] at *
      by_cases hpk : pk = key
      · subst hpk
        simp only [bne_self_eq_false, Bool.false_eq_true, ite_false]
        rw [ih]
        by_cases hk : k = pk
        · simp [hk]
        · have hb : (k == pk) = false := by simp [hk]
          simp [hk, List.lookup, hb]
      · have hne : (pk != key) = true := by simp [bne_iff_ne, hpk]
        simp only [hne, if_true]
        by_cases hk : k = pk
        · subst hk
          have hb : (k == k) = true := by simp
          have hkey : ¬k = key := hpk
          simp [List.lookup, hb, hkey]
        · have hb : (k == pk) = false := by simp [hk]
          simp only [List.lookup, hb]
          rw [ih]

theorem lookup_putKey (key k : String) (item : DNSCacheItem) (dc : DNSCache) :
    (putKey key item dc).lookup k = if k = key then some item else dc.lookup k := by
  by_cases hk : k = key
  · simp [putKey, List.lookup, hk]
  · have hb : (k == key) = false := by simp [hk]
    simp only [putKey, List.lookup, hb]
    rw [lookup_eraseKey]
    simp [hk]

theorem eraseKey_eraseKey (key : String) (dc : DNSCache) :
    eraseKey key (eraseKey key dc) = eraseKey key dc := by
  simp [eraseKey, List.filter_filter]

theorem eraseKey_putKey (key : String) (item : DNSCacheItem) (dc : DNSCache) :
    eraseKey key (putKey key item dc) = eraseKey key dc := by
  simp [putKey, eraseKey, List.filter_cons, List.filter_filter]

/-- When the reply has a first answer record and the query has a key,
`cacheResponse` is exactly an insert-or-replace of the fresh item. -/
theorem cacheResponse_eq_putKey (now : Nat) (dc : DNSCache) (req resp : DNSMsg)
    (key : String) (a : DNSRR) (rest : List DNSRR)
    (hkey : getKey req = some key) (hans : resp.answer = a :: rest) :
    cacheResponse now dc req resp =
      putKey key { timeOut := now + a.ttl, resp := resp } dc := by
  simp [cacheResponse, hans, hkey, NewDNSCacheItem]

/-- C1: the claim as stated is false at the boundary instant `T + S`: the
entry inserted at `T = 0` with TTL `S = 5` is still returned by a lookup at
instant `5 = T + S`, where the claim demands not-found and removal. -/
theorem C1_counterexample :
    0 + 5 ≤ (5 : Nat) ∧
    (findResponse 5 (cacheResponse 0 NewDNSCache reqEx respEx) reqEx).1 = some respEx := by
  decide

/-- C1 (amended): an entry inserted by `cacheResponse` at instant `T` from a
reply whose first answer record has TTL `S` has `timeOut = T + S`; a lookup
at any instant in the closed interval `[T, T + S]` returns the cached reply
and leaves the map unchanged; a lookup at any instant strictly after `T + S`
returns not-found and removes the entry from the map. -/
theorem C1_ttl_law (dc : DNSCache) (req resp : DNSMsg) (key : String) (T : Nat)
    (a : DNSRR) (rest : List DNSRR)
    (hkey : getKey req = some key) (hans : resp.answer = a :: rest) :
    (cacheResponse T dc req resp).lookup key =
        some { timeOut := T + a.ttl, resp := resp } ∧
    (∀ now, T ≤ now → now ≤ T + a.ttl →
      findResponse now (cacheResponse T dc req resp) req =
        (some resp, cacheResponse T dc req resp)) ∧
    (∀ now, T + a.ttl < now →
      findResponse now (cacheResponse T dc req resp) req =
        (none, eraseKey key (cacheResponse T dc req resp)) ∧
      (eraseKey key (cacheResponse T dc req resp)).lookup key = none) := by
  rw [cacheResponse_eq_putKey T dc req resp key a rest hkey hans]
  refine ⟨?_, ?_, ?_⟩
  · rw [lookup_putKey]; simp
  · intro now _ hle
    simp only [findResponse, hkey]
    rw [lookup_putKey]
    simp [DNSCacheItem.isTimeout, Nat.not_lt.mpr hle]
  · intro now hlt
    constructor
    · simp only [findResponse, hkey]
      rw [lookup_putKey]
      simp [DNSCacheItem.isTimeout, hlt]
    · rw [lookup_eraseKey]; simp

/-- Witness for `C1_ttl_law` at `T = 0`, TTL 5: the stored item, a hit at
instant 3, and a miss-with-removal at instant 6. -/
theorem C1_ttl_law_witness :
    (cacheResponse 0 NewDNSCache reqEx respEx).lookup "example.com.-1" =
        some { timeOut := 0 + 5, resp := respEx } ∧
    findResponse 3 (cacheResponse 0 NewDNSCache reqEx respEx) reqEx =
        (some respEx, cacheResponse 0 NewDNSCache reqEx respEx) ∧
    findResponse 6 (cacheResponse 0 NewDNSCache reqEx respEx) reqEx =
        (none, eraseKey "example.com.-1" (cacheResponse 0 NewDNSCache reqEx respEx)) := by
  obtain ⟨h1, h2, h3⟩ :=
    C1_ttl_law NewDNSCache reqEx respEx "example.com.-1" 0 { ttl := 5 } []
      (by decide) (by decide)
  exact ⟨h1, h2 3 (by decide) (by decide), (h3 6 (by decide)).1⟩

/-- C2: cache-key derivation.  For exactly one question of type A or AAAA a
key is derived, determined by the question's name and type alone (so equal
name and type give the same key, even across two different queries); for
zero questions, two or more questions, or a single question of another type
no key is derived, and a keyless query is never served from the cache
(`findResponse` misses and leaves the map unchanged) nor stored into it
(`cacheResponse` is the identity). -/
theorem C2_cache_key (req : DNSMsg) :
    (∀ q, req.question = [q] → (q.qtype = TypeA ∨ q.qtype = TypeAAAA) →
        getKey req = some (q.name ++ "-" ++ toString q.qtype)) ∧
    (∀ req2 q q2, req.question = [q] → req2.question = [q2] →
        q.name = q2.name → q.qtype = q2.qtype → getKey req = getKey req2) ∧
    ((req.question = [] ∨ 2 ≤ req.question.length ∨
        (∃ q, req.question = [q] ∧ q.qtype ≠ TypeA ∧ q.qtype ≠ TypeAAAA)) →
      getKey req = none) ∧
    (getKey req = none →
      (∀ now dc, findResponse now dc req = (none, dc)) ∧
      (∀ now dc resp, cacheResponse now dc req resp = dc)) := by
  refine ⟨?_, ?_, ?_, ?_⟩
  · intro q hq htype
    rcases htype with h | h <;> simp [getKey, hq, h, TypeA, TypeAAAA]
  · intro req2 q q2 hq hq2 hname htype
    simp only [getKey, hq, hq2, hname, htype]
  · intro h
    rcases h with h | h | ⟨q, hq, hA, hAAAA⟩
    · simp [getKey, h]
    · match hqs : req.question with
      | [] => simp [hqs] at h
      | [q] => simp [hqs] at h
      | _ :: _ :: _ => simp [getKey, hqs]
    · have hbA : (q.qtype == TypeA) = false := by simp [hA]
      have hbAAAA : (q.qtype == TypeAAAA) = false := by simp [hAAAA]
      simp [getKey, hq, hbA, hbAAAA]
  · intro h
    constructor
    · intro now dc; simp [findResponse, h]
    · intro now dc resp; simp [cacheResponse, h]

/-- Witness for `C2_cache_key`: the key of a concrete A question, its
determinism against a second query sharing name and type, keylessness of a
concrete TXT question, and the cache bypass for it. -/
theorem C2_cache_key_witness :
    getKey reqEx = some ("example.com." ++ "-" ++ toString 1) ∧
    getKey reqEx =
      getKey { id := 9, question := [{ name := "example.com.", qtype := 1, qclass := 1 }],
               answer := [] } ∧
    getKey { id := 4, question := [{ name := "example.com.", qtype := 16, qclass := 1 }],
             answer := [] } = none ∧
    findResponse 0 (cacheResponse 0 NewDNSCache reqEx respEx)
        { id := 4, question := [{ name := "example.com.", qtype := 16, qclass := 1 }],
          answer := [] } =
      (none, cacheResponse 0 NewDNSCache reqEx respEx) := by
  refine ⟨?_, ?_, ?_, ?_⟩
  · exact (C2_cache_key reqEx).1 qA (by decide) (Or.inl (by decide))
  · exact (C2_cache_key reqEx).2.1 _ qA { name := "example.com.", qtype := 1, qclass := 1 }
      (by decide) (by decide) (by decide) (by decide)
  · exact (C2_cache_key _).2.2.1 (Or.inr (Or.inr ⟨{ name := "example.com.", qtype := 16, qclass := 1 }, by decide, by decide, by decide⟩))
  · exact ((C2_cache_key _).2.2.2 ((C2_cache_key _).2.2.1
      (Or.inr (Or.inr ⟨{ name := "example.com.", qtype := 16, qclass := 1 }, by decide, by decide, by decide⟩)))).1 0 _

/-- C5: the store frame condition.  `cacheResponse` leaves the map untouched
when the reply has no answer records or the query has no key; otherwise it
inserts or replaces exactly the entry at the derived key, with expiry equal
to the instant plus the first answer record's TTL, and every other key's
entry is unchanged. -/
theorem C5_store_frame (now : Nat) (dc : DNSCache) (req resp : DNSMsg) :
    (resp.answer = [] → cacheResponse now dc req resp = dc) ∧
    (getKey req = none → cacheResponse now dc req resp = dc) ∧
    (∀ key a rest, getKey req = some key → resp.answer = a :: rest →
      (cacheResponse now dc req resp).lookup key =
          some { timeOut := now + a.ttl, resp := resp } ∧
      (∀ k, k ≠ key → (cacheResponse now dc req resp).lookup k = dc.lookup k)) := by
  refine ⟨?_, ?_, ?_⟩
  · intro h; simp [cacheResponse, h]
  · intro h
    simp only [cacheResponse, h]
    split <;> rfl
  · intro key a rest hkey hans
    rw [cacheResponse_eq_putKey now dc req resp key a rest hkey hans]
    constructor
    · rw [lookup_putKey]; simp
    · intro k hk
      rw [lookup_putKey]
      simp [hk]

/-- Witness for `C5_store_frame`: no-op on an answerless reply, no-op on a
keyless query, and insert-plus-frame on a concrete store. -/
theorem C5_store_frame_witness :
    cacheResponse 3 [("other-1", { timeOut := 9, resp := respEx })] reqEx
        { id := 7, question := [qA], answer := [] } =
      [("other-1", { timeOut := 9, resp := respEx })] ∧
    cacheResponse 3 [("other-1", { timeOut := 9, resp := respEx })]
        { id := 2, question := [], answer := [] } respEx =
      [("other-1", { timeOut := 9, resp := respEx })] ∧
    (cacheResponse 3 [("other-1", { timeOut := 9, resp := respEx })] reqEx respEx).lookup
        "example.com.-1" = some { timeOut := 3 + 5, resp := respEx } ∧
    (cacheResponse 3 [("other-1", { timeOut := 9, resp := respEx })] reqEx respEx).lookup
        "other-1" = [("other-1", { timeOut := 9, resp := respEx })].lookup "other-1" := by
  refine ⟨?_, ?_, ?_, ?_⟩
  · exact (C5_store_frame 3 _ reqEx _).1 (by decide)
  · exact (C5_store_frame 3 _ _ respEx).2.1 (by decide)
  · exact ((C5_store_frame 3 _ reqEx respEx).2.2 "example.com.-1" { ttl := 5 } []
      (by decide) (by decide)).1
  · exact ((C5_store_frame 3 _ reqEx respEx).2.2 "example.com.-1" { ttl := 5 } []
      (by decide) (by decide)).2 "other-1" (by decide)

/-- C6: store idempotence.  At a fixed instant, storing the same (query,
reply) pair twice leaves the cache in exactly the state one store leaves. -/
theorem C6_store_idempotent (now : Nat) (dc : DNSCache) (req resp : DNSMsg) :
    cacheResponse now (cacheResponse now dc req resp) req resp =
      cacheResponse now dc req resp := by
  unfold cacheResponse
  split
  · match hkey : getKey req with
    | none => simp
    | some key =>
        match hitem : NewDNSCacheItem now resp with
        | none => simp
        | some item =>
            simp only [putKey]
            congr 1
            simp [eraseKey, List.filter_cons, List.filter_filter]
  · rfl

/-- The upstream loop on a list whose first successful server is `s`: every
server before `s` is contacted and fails, `s` is contacted and its reply is
cached and written, and nothing after `s` is contacted. -/
theorem forwardLoop_first_success (now : Nat) (exchange : DNSServer → Option DNSMsg)
    (cache : DNSCache) (req r : DNSMsg) (s : DNSServer) (post : List DNSServer) :
    ∀ pre : List DNSServer, (∀ u ∈ pre, exchange u = none) → exchange s = some r →
      forwardLoop now exchange cache req (pre ++ s :: post) =
        { written := some r,
          cache := cacheResponse now cache req r,
          contacted := pre ++ [s] } := by
  intro pre
  induction pre with
  | nil =>
      intro _ hs
      simp [forwardLoop, hs]
  | cons u rest ih =>
      intro hpre hs
      have hu : exchange u = none := hpre u (List.mem_cons_self u rest)
      have hrest : ∀ v ∈ rest, exchange v = none :=
        fun v hv => hpre v (List.mem_cons_of_mem u hv)
      simp [forwardLoop, hu, ih hrest hs]

/-- C3: fallback ordering.  On a cache miss the handler tries the upstreams
in list order; with every server before `s` failing and `s` succeeding with
reply `r`, the written reply is exactly `r`, the cache is the post-lookup
cache updated from `r` only, and the contacted servers are those up to and
including `s` — none after it. -/
theorem C3_fallback_order (now : Nat) (exchange : DNSServer → Option DNSMsg)
    (pre post : List DNSServer) (s : DNSServer) (cache : DNSCache) (req r : DNSMsg)
    (hmiss : (findResponse now cache req).1 = none)
    (hpre : ∀ u ∈ pre, exchange u = none)
    (hs : exchange s = some r) :
    processDNSMsg now exchange (pre ++ s :: post) cache req =
      { written := some r,
        cache := cacheResponse now (findResponse now cache req).2 req r,
        contacted := pre ++ [s] } := by
  unfold processDNSMsg
  match hfind : findResponse now cache req with
  | (some resp, cache1) => rw [hfind] at hmiss; simp at hmiss
  | (none, cache1) =>
      simpa using forwardLoop_first_success now exchange cache1 req r s post pre hpre hs

/-- Witness for `C3_fallback_order`: upstream list `[U1, U2, U3]` with `U1`
and `U2` failing and `U3` succeeding, on an empty cache. -/
theorem C3_fallback_order_witness :
    processDNSMsg 0 exchEx ([U1, U2] ++ U3 :: []) NewDNSCache reqEx =
      { written := some respEx,
        cache := cacheResponse 0 (findResponse 0 NewDNSCache reqEx).2 reqEx respEx,
        contacted := [U1, U2] ++ [U3] } :=
  C3_fallback_order 0 exchEx [U1, U2] [] U3 NewDNSCache reqEx respEx
    (by decide) (by decide) (by decide)

/-- C4: the claim as stated is false: a query whose cached entry has expired
misses the cache, and the miss itself removes the entry, so with all (here:
zero) upstreams failing the handler still changed the mapping.  Concretely:
an entry with expiry instant 10 looked up at instant 20 with an empty
upstream list — nothing is written, yet the final map lost the entry. -/
theorem C4_counterexample :
    (findResponse 20 [("example.com.-1", { timeOut := 10, resp := respEx })] reqEx).1
        = none ∧
    (processDNSMsg 20 (fun _ => none) []
        [("example.com.-1", { timeOut := 10, resp := respEx })] reqEx).written = none ∧
    (processDNSMsg 20 (fun _ => none) []
        [("example.com.-1", { timeOut := 10, resp := respEx })] reqEx).cache ≠
      [("example.com.-1", { timeOut := 10, resp := respEx })] := by
  decide

/-- The upstream loop with every server failing: nothing is written, the
cache is untouched, and every server was contacted. -/
theorem forwardLoop_all_fail (now : Nat) (exchange : DNSServer → Option DNSMsg)
    (cache : DNSCache) (req : DNSMsg) :
    ∀ servers : List DNSServer, (∀ u ∈ servers, exchange u = none) →
      forwardLoop now exchange cache req servers =
        { written := none, cache := cache, contacted := servers } := by
  intro servers
  induction servers with
  | nil => intro _; simp [forwardLoop]
  | cons u rest ih =>
      intro hall
      have hu : exchange u = none := hall u (List.mem_cons_self u rest)
      have hrest : ∀ v ∈ rest, exchange v = none :=
        fun v hv => hall v (List.mem_cons_of_mem u hv)
      simp [forwardLoop, hu, ih hrest]

/-- C4 (amended): when the query misses the cache and every configured
upstream's exchange fails (including an empty upstream list), the handler
writes no reply and performs no insertion: the final mapping is exactly the
mapping left by the lookup step, which differs from the initial one only by
the lookup's removal of the query's own expired entry; every upstream was
contacted. -/
theorem C4_total_failure (now : Nat) (exchange : DNSServer → Option DNSMsg)
    (servers : List DNSServer) (cache : DNSCache) (req : DNSMsg)
    (hmiss : (findResponse now cache req).1 = none)
    (hall : ∀ u ∈ servers, exchange u = none) :
    processDNSMsg now exchange servers cache req =
      { written := none, cache := (findResponse now cache req).2,
        contacted := servers } := by
  unfold processDNSMsg
  match hfind : findResponse now cache req with
  | (some resp, cache1) => rw [hfind] at hmiss; simp at hmiss
  | (none, cache1) =>
      simpa using forwardLoop_all_fail now exchange cache1 req servers hall

/-- Witness for `C4_total_failure`: both failing upstreams `U1, U2` on an
empty cache — nothing written, cache still empty, both contacted. -/
theorem C4_total_failure_witness :
    processDNSMsg 0 (fun _ => none) [U1, U2] NewDNSCache reqEx =
      { written := none, cache := (findResponse 0 NewDNSCache reqEx).2,
        contacted := [U1, U2] } :=
  C4_total_failure 0 (fun _ => none) [U1, U2] NewDNSCache reqEx
    (by decide) (by decide)

/-- A string cannot start with both `"udp:"` and `"tcp:"`. -/
theorem not_udp_and_tcp (s : String) :
    ¬(hasPrefixChars s "udp:" = true ∧ hasPrefixChars s "tcp:" = true) := by
  rintro ⟨h1, h2⟩
  rw [hasPrefixChars, List.isPrefixOf_iff_prefix] at h1 h2
  obtain ⟨t1, e1⟩ := h1
  obtain ⟨t2, e2⟩ := h2
  rw [← e1] at e2
  have hhead : ("udp:".data ++ t1).head? = ("tcp:".data ++ t2).head? := by rw [e2]
  have hu : "udp:".data = ['u', 'd', 'p', ':'] := rfl
  have ht : "tcp:".data = ['t', 'c', 'p', ':'] := rfl
  rw [hu, ht] at hhead
  simp at hhead

/-- C7: the address parsing rule.  A leading `udp:` yields UDP with the
remainder of the string; a leading `tcp:` yields TCP with the remainder;
anything else yields UDP with the string verbatim; the error is always nil;
and upstream resolver addresses are parsed by exactly the same rule as
listen addresses (`parseDNSServerAddr` delegates to `parseListenAddr`). -/
theorem C7_parse_rule (s : String) :
    (hasPrefixChars s "udp:" = true → parseListenAddr s = ("udp", s.drop 4, none)) ∧
    (hasPrefixChars s "tcp:" = true → parseListenAddr s = ("tcp", s.drop 4, none)) ∧
    (hasPrefixChars s "udp:" = false → hasPrefixChars s "tcp:" = false →
      parseListenAddr s = ("udp", s, none)) ∧
    parseDNSServerAddr s = parseListenAddr s := by
  refine ⟨?_, ?_, ?_, rfl⟩
  · intro h; simp [parseListenAddr, h]
  · intro h
    have hnu : hasPrefixChars s "udp:" = false := by
      cases hu : hasPrefixChars s "udp:" with
      | false => rfl
      | true => exact absurd ⟨hu, h⟩ (not_udp_and_tcp s)
    simp [parseListenAddr, hnu, h]
  · intro h1 h2; simp [parseListenAddr, h1, h2]

/-- Witness for `C7_parse_rule` on the three shapes of address string. -/
theorem C7_parse_rule_witness :
    parseListenAddr "udp:0.0.0.0:53" = ("udp", "0.0.0.0:53", none) ∧
    parseListenAddr "tcp:0.0.0.0:53" = ("tcp", "0.0.0.0:53", none) ∧
    parseListenAddr "0.0.0.0:53" = ("udp", "0.0.0.0:53", none) := by
  refine ⟨?_, ?_, ?_⟩
  · have h := (C7_parse_rule "udp:0.0.0.0:53").1 (by decide)
    simpa using h
  · have h := (C7_parse_rule "tcp:0.0.0.0:53").2.1 (by decide)
    simpa using h
  · have h := (C7_parse_rule "0.0.0.0:53").2.2.1 (by decide) (by decide)
    simpa using h

/-- Totality of parsing: `parseListenAddr` is total and infallible: nil error, transport `udp` or
`tcp`. -/
theorem parse_components (s : String) :
    (parseListenAddr s).2.2 = none ∧
    ((parseListenAddr s).1 = "udp" ∨ (parseListenAddr s).1 = "tcp") := by
  unfold parseListenAddr
  by_cases h1 : hasPrefixChars s "udp:" <;> by_cases h2 : hasPrefixChars s "tcp:" <;>
    simp [h1, h2]

/-- The function `start` only ever terminates with success or a listener (bind) failure:
the parse-failure and unsupported-protocol branches are dead. -/
theorem start_outcome_shape (bind : String → String → Option String) (handler : Nat) :
    ∀ (las : List String) (mux : ServeMux),
      (start bind handler las mux).1 = StartOutcome.ok ∨
        ∃ e, (start bind handler las mux).1 = StartOutcome.bindFailure e := by
  intro las
  induction las with
  | nil => intro mux; left; rfl
  | cons la rest ih =>
      intro mux
      obtain ⟨herr, hproto⟩ := parse_components la
      match hp : parseListenAddr la with
      | (proto, addr, err) =>
          rw [hp] at herr hproto
          simp only at herr hproto
          subst herr
          simp only [start, hp]
          rcases hproto with h | h
          · subst h
            simp only [reduceIte, beq_self_eq_true]
            cases hb : bind "udp" addr with
            | some e => right; exact ⟨e, rfl⟩
            | none => exact ih _
          · subst h
            have hne : (("tcp" : String) == "udp") = false := by decide
            simp only [hne, beq_self_eq_true, Bool.false_eq_true, ite_false, ite_true]
            cases hb : bind "tcp" addr with
            | some e => right; exact ⟨e, rfl⟩
            | none => exact ih _

/-- C10: address parsing is total and infallible — a nil error and a
transport that is always `udp` or `tcp` — so `NewDNSServer` always succeeds,
`NewCacheServer` keeps one client per configured upstream string (none is
dropped), and `start` can only end in success or a listener bind failure:
its parse-failure and unsupported-protocol returns are unreachable. -/
theorem C10_parse_infallible :
    (∀ s, (parseListenAddr s).2.2 = none ∧
        ((parseListenAddr s).1 = "udp" ∨ (parseListenAddr s).1 = "tcp")) ∧
    (∀ s, ∃ d, NewDNSServer s = some d) ∧
    (∀ las ss, (NewCacheServer las ss).servers.length = ss.length) ∧
    (∀ bind handler las mux,
      (start bind handler las mux).1 = StartOutcome.ok ∨
        ∃ e, (start bind handler las mux).1 = StartOutcome.bindFailure e) := by
  have hnew : ∀ s, ∃ d, NewDNSServer s = some d := by
    intro s
    obtain ⟨herr, _⟩ := parse_components s
    unfold NewDNSServer parseDNSServerAddr
    match hp : parseListenAddr s with
    | (proto, addr, err) =>
        rw [hp] at herr
        simp only at herr
        subst herr
        exact ⟨_, rfl⟩
  refine ⟨parse_components, hnew, ?_, start_outcome_shape⟩
  intro las ss
  simp only [NewCacheServer]
  induction ss with
  | nil => rfl
  | cons s rest ih =>
      obtain ⟨d, hd⟩ := hnew s
      simp [List.filterMap_cons, hd, ih]

/-- After a `"."` registration, the shared table resolves to that handler. -/
theorem muxResolve_HandleFunc (handler : Nat) (mux : ServeMux) :
    muxResolve (HandleFunc "." handler mux) = some handler := by
  simp [muxResolve, HandleFunc, List.lookup]

/-- The function `start` preserves an existing resolution to this instance's own handler
(every table it leaves behind still maps `"."` to `handler`). -/
theorem muxResolve_start (bind : String → String → Option String) (handler : Nat) :
    ∀ (las : List String) (mux : ServeMux), muxResolve mux = some handler →
      muxResolve (start bind handler las mux).2 = some handler := by
  intro las
  induction las with
  | nil => intro mux h; exact h
  | cons la rest ih =>
      intro mux h
      simp only [start]
      match hp : parseListenAddr la with
      | (proto, addr, some e) => exact h
      | (proto, addr, none) =>
          simp only
          by_cases hu : (proto == "udp") = true
          · simp only [hu, if_true]
            cases hb : bind "udp" addr with
            | some e => exact muxResolve_HandleFunc handler mux
            | none => exact ih _ (muxResolve_HandleFunc handler mux)
          · simp only [hu, if_false]
            by_cases ht : (proto == "tcp") = true
            · simp only [ht, if_true]
              cases hb : bind "tcp" addr with
              | some e => exact muxResolve_HandleFunc handler mux
              | none => exact ih _ (muxResolve_HandleFunc handler mux)
            · simp only [ht, if_false]
              exact muxResolve_HandleFunc handler mux

/-- Starting a server on at least one listen address always leaves the
shared table resolving to that server's handler. -/
theorem muxResolve_start_cons (bind : String → String → Option String)
    (handler : Nat) (la : String) (rest : List String) (mux : ServeMux) :
    muxResolve (start bind handler (la :: rest) mux).2 = some handler := by
  simp only [start]
  match hp : parseListenAddr la with
  | (proto, addr, some e) =>
      obtain ⟨herr, _⟩ := parse_components la
      rw [hp] at herr
      simp at herr
  | (proto, addr, none) =>
      simp only
      by_cases hu : (proto == "udp") = true
      · simp only [hu, if_true]
        cases hb : bind "udp" addr with
        | some e => exact muxResolve_HandleFunc handler mux
        | none => exact muxResolve_start bind handler _ _ (muxResolve_HandleFunc handler mux)
      · simp only [hu, if_false]
        by_cases ht : (proto == "tcp") = true
        · simp only [ht, if_true]
          cases hb : bind "tcp" addr with
          | some e => exact muxResolve_HandleFunc handler mux
          | none => exact muxResolve_start bind handler _ _ (muxResolve_HandleFunc handler mux)
        · simp only [ht, if_false]
          exact muxResolve_HandleFunc handler mux

/-- C8: the claim as stated is false.  `start` registers the handler through
`dns.HandleFunc`, the package-level registration in the library's shared
`DefaultServeMux`, and the `dns.Server` listeners carry no per-instance
handler, so they dispatch through that shared table (`muxResolve`).
Concretely: instance A (handler 0) starts first and the table resolves to 0;
then instance B (handler 1) starts, and the very table A's listeners
dispatch through now resolves to 1 — starting B modified global state that
decides which handler A's listeners invoke. -/
theorem C8_counterexample :
    muxResolve (start (fun _ _ => none) 0 ["udp:127.0.0.1:1053"] []).2 = some 0 ∧
    muxResolve (start (fun _ _ => none) 1 ["udp:127.0.0.1:2053"]
        (start (fun _ _ => none) 0 ["udp:127.0.0.1:1053"] []).2).2 = some 1 ∧
    muxResolve (start (fun _ _ => none) 1 ["udp:127.0.0.1:2053"]
        (start (fun _ _ => none) 0 ["udp:127.0.0.1:1053"] []).2).2 ≠ some 0 := by
  decide

/-- C8 (amended): each Cache Server's `start` registers its handler under
the root pattern `"."` in the DNS library's process-wide shared dispatch
table, and every listener (created without an instance handler) dispatches
through that table; hence after any instance starts, the table resolves to
that instance's handler — in particular a later instance's `start` modifies
the global state that decides which handler an earlier instance's listeners
invoke (last registration wins). -/
theorem C8_shared_dispatch (bindA bindB : String → String → Option String)
    (hA hB : Nat) (laA laB : String) (restA restB : List String) (mux : ServeMux) :
    muxResolve (start bindA hA (laA :: restA) mux).2 = some hA ∧
    muxResolve (start bindB hB (laB :: restB)
        (start bindA hA (laA :: restA) mux).2).2 = some hB :=
  ⟨muxResolve_start_cons bindA hA laA restA mux,
   muxResolve_start_cons bindB hB laB restB _⟩

/-- C9: cache-hit aliasing.  On a hit, `findResponse` hands back the very
message object stored in the cache (its heap address), the handler then
assigns the inbound query's transaction identifier to that object in place
before writing it, the cache entry still holds the same address afterwards,
so the stored reply's identifier is now the most recent requester's; and a
later hit for the same key returns this same mutated stored reply. -/
theorem C9_hit_aliasing (now now2 : Nat) (exchange : DNSServer → Option DNSMsg)
    (servers : List DNSServer) (st : Aliased.St) (req req2 : DNSMsg)
    (key : String) (item : Aliased.CacheItem) (m : DNSMsg)
    (hkey : getKey req = some key)
    (hlook : st.cache.lookup key = some item)
    (hfresh : ¬ item.timeOut < now)
    (hheap : st.heap.get? item.respAddr = some m) :
    (Aliased.processDNSMsg now exchange servers st req).2 = some item.respAddr ∧
    (Aliased.processDNSMsg now exchange servers st req).1.cache = st.cache ∧
    (Aliased.processDNSMsg now exchange servers st req).1.heap.get? item.respAddr =
      some { m with id := req.id } ∧
    (getKey req2 = some key → ¬ item.timeOut < now2 →
      Aliased.findResponse now2 (Aliased.processDNSMsg now exchange servers st req).1 req2 =
        (some item.respAddr, (Aliased.processDNSMsg now exchange servers st req).1)) := by
  rw [List.get?_eq_getElem?] at hheap
  have hfind : Aliased.findResponse now st req = (some item.respAddr, st) := by
    simp [Aliased.findResponse, hkey, hlook, hfresh]
  have hres : Aliased.processDNSMsg now exchange servers st req =
      ({ st with heap := st.heap.set item.respAddr { m with id := req.id } },
        some item.respAddr) := by
    simp [Aliased.processDNSMsg, hfind, hheap]
  have hlen : item.respAddr < st.heap.length :=
    (List.getElem?_eq_some.mp hheap).1
  refine ⟨by rw [hres], by rw [hres], ?_, ?_⟩
  · rw [hres]
    simp only [List.get?_eq_getElem?]
    exact List.getElem?_set_self (by simpa using hlen)
  · intro hkey2 hfresh2
    rw [hres]
    simp [Aliased.findResponse, hkey2, hlook, hfresh2]

/-- Witness for `C9_hit_aliasing`: a hit at instant 30 writes the stored
object at address 0, mutates its identifier to the requester's (2), keeps
the cache entry pointing at it, and a second hit at instant 40 returns the
same address. -/
theorem C9_hit_aliasing_witness :
    (Aliased.processDNSMsg 30 (fun _ => none) [] stEx reqEx).2 = some 0 ∧
    (Aliased.processDNSMsg 30 (fun _ => none) [] stEx reqEx).1.cache = stEx.cache ∧
    (Aliased.processDNSMsg 30 (fun _ => none) [] stEx reqEx).1.heap.get? 0 =
      some { respEx with id := reqEx.id } ∧
    Aliased.findResponse 40 (Aliased.processDNSMsg 30 (fun _ => none) [] stEx reqEx).1
        { id := 3, question := [qA], answer := [] } =
      (some 0, (Aliased.processDNSMsg 30 (fun _ => none) [] stEx reqEx).1) := by
  obtain ⟨h1, h2, h3, h4⟩ :=
    C9_hit_aliasing 30 40 (fun _ => none) [] stEx reqEx
      { id := 3, question := [qA], answer := [] } "example.com.-1"
      { timeOut := 60, respAddr := 0 } respEx
      (by decide) (by decide) (by decide) (by decide)
  exact ⟨h1, h2, h3, h4 (by decide) (by decide)⟩
